import Mathlib

/-
Verification of the thinkfan fan-control daemon, main program
(src/src/thinkfan.cpp).

The control loop (`run`), the status report (`report_tstat`), the option
handling for the bias scale (`set_options`, case 'b') and the reload
handling in `main` are embedded shallowly below.  C++ machine floats are
modelled as rationals, C++ strings as lists of characters, and the
iterator `cur_lvl` into `config.levels()` as a natural-number index.

The `Level` comparison operators, the sensor drivers and the fan driver
are external collaborators (declared in config.h / drivers, which are not
part of this file's source); they are modelled from the specification as
noted in the doc comments of the corresponding definitions.
-/

/-- Modelled from the spec: a `Level` is "a threshold profile mapping a
temperature range to one fan-speed instruction", with an asymmetric
engage/disengage pair of bounds.  `upper` is the bound used by the C++
`operator<=` (the temperature at which the *next* level engages) and
`lower` the bound used by `operator>` (the temperature below which this
level disengages).  The concrete comparison code lives in config.h, which
is not under src/. -/
structure Level where
  speed : Nat
  lower : Int
  upper : Int
deriving DecidableEq

/-- Modelled from the spec: the C++ test `**cur_lvl <= *temp_state` at
index `i` of the level list -- the temperature state has risen to at
least the level's upper bound, so the level above it engages.  Out of
bounds (the C++ iterator at `end()`) the test is false; the dereference
performed there by the C++ code is undefined behaviour, examined
separately. -/
def lvlLe (levels : List Level) (i : Nat) (s : Int) : Bool :=
  match levels[i]? with
  | some L => decide (L.upper ≤ s)
  | none => false

/-- Modelled from the spec: the C++ test `**cur_lvl > *temp_state` at
index `i` -- the temperature state has fallen below the level's lower
(disengagement) bound. -/
def lvlGt (levels : List Level) (i : Nat) (s : Int) : Bool :=
  match levels[i]? with
  | some L => decide (s < L.lower)
  | none => false

/-- Body of the scanning loop
`while (cur_lvl != config.levels().end() && **cur_lvl <= *temp_state) cur_lvl++;`
expressed structurally on the list of levels still ahead of the cursor:
the number of consecutive levels from the front whose `operator<=` test
holds. -/
def fwdScanAux (s : Int) : List Level → Nat
  | [] => 0
  | L :: rest => if L.upper ≤ s then fwdScanAux s rest + 1 else 0

/-- The forward scan of thinkfan.cpp lines 118-119 and 143-144: starting
from index `c`, advance while the current level's `<=` test holds and the
end of the list is not reached; return the resting index. -/
def fwdScan (levels : List Level) (s : Int) (c : Nat) : Nat :=
  c + fwdScanAux s (levels.drop c)

/-- The backward scan of thinkfan.cpp line 151-152:
`while (cur_lvl != config.levels().begin() && **cur_lvl > *temp_state) cur_lvl--;`. -/
def backScan (levels : List Level) (s : Int) : Nat → Nat
  | 0 => 0
  | c + 1 => if lvlGt levels (c + 1) s then backScan levels s c else c + 1

/-- The two fan commands the loop can issue (`config.fan()->set_speed`
and `config.fan()->ping_watchdog_and_depulse`), recorded with the index
of the level they are issued for. -/
inductive FanCmd where
  | set_speed (idx : Nat)
  | ping (idx : Nat)
deriving DecidableEq

/-- Result of one evaluation of the hysteresis transition
(thinkfan.cpp lines 142-159): new cursor position, new value of
`tmp_sleeptime`, and the fan commands issued. -/
structure HystOut where
  cur : Nat
  tmpSleeptime : Nat
  cmds : List FanCmd
deriving DecidableEq

/-- thinkfan.cpp lines 142-159: if the current level's `<=` test holds,
scan forward and set the speed of the resting level; else if its `>` test
holds, scan backward, set the speed of the resting level and reset
`tmp_sleeptime` to the base interval; else ping the watchdog for the
current level. -/
def hystStep (levels : List Level) (s : Int) (cur tmpS base : Nat) : HystOut :=
  if lvlLe levels cur s then
    { cur := fwdScan levels s cur
      tmpSleeptime := tmpS
      cmds := [FanCmd.set_speed (fwdScan levels s cur)] }
  else if lvlGt levels cur s then
    { cur := backScan levels s cur
      tmpSleeptime := base
      cmds := [FanCmd.set_speed (backScan levels s cur)] }
  else
    { cur := cur, tmpSleeptime := tmpS, cmds := [FanCmd.ping cur] }

/-- The part of the immutable `Config` snapshot the control loop reads:
the declared number of temperature slots and the ordered level list.
Sensors and the fan driver are external capabilities whose effects enter
the loop as the cycle's readings and leave it as `FanCmd` values. -/
structure Config where
  numTemps : Nat
  levels : List Level
deriving DecidableEq

/-- The error thrown at thinkfan.cpp line 140 when the write cursor has
not reached the end of the `temps` buffer after all sensors ran
(`SystemError(MSG_SENSOR_LOST)`). -/
inductive SystemError where
  | sensorLost
deriving DecidableEq

/-- `tmax` computation: reinitialised to the sentinel -128 (line 134),
then raised to the maximum of the readings recorded by the sensors. -/
def tmaxOf (readings : List Int) : Int :=
  readings.foldl max (-128)

/-- State produced by one loop iteration (before the sleep and the bias
decay): cursor, `tmp_sleeptime`, the carried bias, this cycle's `tmax`,
and the fan commands issued. -/
structure CycleOut where
  cur : Nat
  tmpSleeptime : Nat
  bias : ℚ
  tmax : Int
  cmds : List FanCmd
deriving DecidableEq

/-- One iteration of the `while (likely(!interrupted))` loop of `run`
(thinkfan.cpp lines 127-159) up to the sleep: swap buffers and reset the
cursor (implicit -- the cycle's readings arrive as `readings`), carry the
bias over, recompute `tmax`, check the sensor-lost invariant (line 139:
`fail(TF_ERR) << SystemError(MSG_SENSOR_LOST)` throws, modelled as
`Except.error`, so no fan command is issued), then run the hysteresis
transition. -/
def oneCycle (cfg : Config) (base cur tmpS : Nat) (bias : ℚ)
    (readings : List Int) : Except SystemError CycleOut :=
  if readings.length ≠ cfg.numTemps then
    Except.error SystemError.sensorLost
  else
    let t := tmaxOf readings
    let h := hystStep cfg.levels t cur tmpS base
    Except.ok { cur := h.cur, tmpSleeptime := h.tmpSleeptime, bias := bias
                tmax := t, cmds := h.cmds }

/-- The fan commands observable from a cycle result: none when the cycle
aborted with a `SystemError`. -/
def cmdsOf : Except SystemError CycleOut → List FanCmd
  | Except.error _ => []
  | Except.ok o => o.cmds

/-- The initial level selection of `run` (thinkfan.cpp lines 116-119):
`cur_lvl` starts at `begin()` and the forward scan runs once before the
first `set_speed`. -/
def initialLevel (levels : List Level) (s : Int) : Nat :=
  fwdScan levels s 0

/-- Modelled from the spec: the engagement predicate of the level at
index `j`.  Per the end-to-end scenario of spec section 8, a level's
engagement threshold is the temperature at which the rising scan moves up
into it, i.e. the upper bound of its predecessor (the bound the C++
`operator<=` of the predecessor compares against); the lowest level is
the floor of the scan and is always engaged (its engagement threshold in
the scenario is the bottom of the range). -/
def engagedIdx (levels : List Level) (s : Int) (j : Nat) : Bool :=
  if j = 0 then true else lvlLe levels (j - 1) s

/-- thinkfan.cpp lines 163-173, the bias decay performed after each
cycle's sleep.  C++ floats are modelled as rationals; the literal
structure of the nested conditionals is kept exactly (note the `+` in the
negative branch). -/
def bias_decay (bias bl : ℚ) : ℚ :=
  if bias ≠ 0 then
    if bias > 0 then
      if bias < 1/2 then 0 else bias - bias / 2 * bl
    else
      if bias > -(1/2) then 0 else bias + bias / 2 * bl
  else bias

/-- thinkfan.cpp line 50: `float bias_level(5);` -- the value of the bias
scale when no `-b` option is given. -/
def bias_level_default : ℚ := 5

/-- thinkfan.cpp line 245 (`set_options`, case 'b'): the value stored in
`bias_level` for a command-line argument `b` that passed the range check
of line 242 (`-10 <= b && b <= 30`). -/
def set_bias_level (b : ℚ) : ℚ := b / 10

/-- thinkfan.cpp lines 68-71: the string `rv` accumulated by
`report_tstat` before its final `substr` -- the prefix
`"Current temperatures: "` followed by `to_string(temp) + ", "` for each
reading.  C++ strings are modelled as lists of characters. -/
def report_acc (temps : List Int) : List Char :=
  "Current temperatures: ".data ++
    (temps.map (fun t => (toString t).data ++ ", ".data)).flatten

/-- thinkfan.cpp lines 67-73: build the accumulated string and drop its
last two characters (`rv.substr(0, rv.length()-2)`). -/
def report_tstat (temps : List Int) : List Char :=
  (report_acc temps).take ((report_acc temps).length - 2)

/-- Modelled from the spec: joining a list of readings with the separator
`", "` -- `"t1, t2, ..., tn"`. -/
def joinSep (sep : List Char) : List (List Char) → List Char
  | [] => []
  | [x] => x
  | x :: y :: rest => x ++ sep ++ joinSep sep (y :: rest)

/-- The log messages of the reload path in `main` (their text lives in
message.h, outside src/; they are modelled as opaque tokens). -/
inductive LogMsg where
  | reloadConf
  | confReloadErr
  | readConfigErr (what : List Char)
deriving DecidableEq

/-- Linux value of SIGHUP, the signal stored in `interrupted` by
`sig_handler` on a reload request. -/
def SIGHUP : Int := 1

/-- The state `main` threads through its do-while loop: the active
config, the `interrupted` flag and the log. -/
structure MainState where
  config : Config
  interrupted : Int
  logs : List LogMsg

/-- Modelled from the spec: the outcome of `Config::read_config`
(configuration loading is an external collaborator) -- either a fresh
config, or a thrown `ExpectedError`, or another `std::exception`. -/
inductive ReloadOutcome where
  | ok (c : Config)
  | expectedErr
  | stdErr (what : List Char)

/-- thinkfan.cpp lines 316-328: after `run` returns, if `interrupted`
is SIGHUP, log the reload message and attempt `read_config`; on success
swap in the new config, on either kind of failure log the reload-failure
message and keep the old config; in all cases clear `interrupted`. -/
def handle_interrupt (st : MainState) (r : ReloadOutcome) : MainState :=
  if st.interrupted = SIGHUP then
    match r with
    | ReloadOutcome.ok c =>
        { config := c, interrupted := 0
          logs := st.logs ++ [LogMsg.reloadConf] }
    | ReloadOutcome.expectedErr =>
        { st with interrupted := 0
                  logs := st.logs ++ [LogMsg.reloadConf, LogMsg.confReloadErr] }
    | ReloadOutcome.stdErr w =>
        { st with interrupted := 0
                  logs := st.logs ++ [LogMsg.reloadConf, LogMsg.readConfigErr w,
                                      LogMsg.confReloadErr] }
  else st

/-- The `while (!interrupted)` guard of the do-while loop in `main`
(thinkfan.cpp line 329): the loop runs another round exactly when the
flag is clear. -/
def loop_continues (st : MainState) : Prop :=
  st.interrupted = 0

/-! ### Helper lemmas about the scans -/

theorem lvlLe_iff {levels : List Level} {i : Nat} {s : Int} :
    lvlLe levels i s = true ↔ ∃ L, levels[i]? = some L ∧ L.upper ≤ s := by
  unfold lvlLe
  cases h : levels[i]? with
  | none => simp
  | some L => simp [h]

theorem lvlLe_lt_length {levels : List Level} {i : Nat} {s : Int}
    (h : lvlLe levels i s = true) : i < levels.length := by
  obtain ⟨L, hL, -⟩ := lvlLe_iff.mp h
  exact (List.getElem?_eq_some_iff.mp hL).1

theorem fwdScanAux_le (s : Int) (l : List Level) : fwdScanAux s l ≤ l.length := by
  induction l with
  | nil => simp [fwdScanAux]
  | cons L rest ih =>
    simp only [fwdScanAux, List.length_cons]
    split
    · omega
    · omega

theorem fwdScanAux_mid (s : Int) (l : List Level) :
    ∀ j, j < fwdScanAux s l → ∃ L, l[j]? = some L ∧ L.upper ≤ s := by
  induction l with
  | nil => simp [fwdScanAux]
  | cons L rest ih =>
    intro j hj
    simp only [fwdScanAux] at hj
    split at hj
    next hL =>
      cases j with
      | zero => exact ⟨L, by simp, hL⟩
      | succ k =>
        obtain ⟨M, hM, hMs⟩ := ih k (by omega)
        exact ⟨M, by simpa using hM, hMs⟩
    next hL => omega

theorem fwdScanAux_stop (s : Int) (l : List Level) :
    ∀ L, l[fwdScanAux s l]? = some L → ¬ (L.upper ≤ s) := by
  induction l with
  | nil => simp
  | cons L rest ih =>
    intro M hM
    simp only [fwdScanAux] at hM
    split at hM
    next hL => exact ih M (by simpa using hM)
    next hL =>
      simp only [List.getElem?_cons_zero, Option.some.injEq] at hM
      subst hM
      exact hL

theorem fwdScanAux_pos (s : Int) (L : Level) (rest : List Level)
    (h : L.upper ≤ s) : 1 ≤ fwdScanAux s (L :: rest) := by
  simp [fwdScanAux, h]

theorem fwdScan_ge (levels : List Level) (s : Int) (c : Nat) :
    c ≤ fwdScan levels s c := by
  simp [fwdScan]

theorem fwdScan_le_length (levels : List Level) (s : Int) (c : Nat)
    (h : c ≤ levels.length) : fwdScan levels s c ≤ levels.length := by
  have h1 := fwdScanAux_le s (levels.drop c)
  rw [List.length_drop] at h1
  unfold fwdScan
  omega

theorem fwdScan_mid (levels : List Level) (s : Int) (c : Nat) :
    ∀ j, c ≤ j → j < fwdScan levels s c → lvlLe levels j s = true := by
  intro j hcj hj
  unfold fwdScan at hj
  obtain ⟨L, hL, hLs⟩ := fwdScanAux_mid s (levels.drop c) (j - c) (by omega)
  rw [List.getElem?_drop] at hL
  have hcj' : c + (j - c) = j := by omega
  rw [hcj'] at hL
  exact lvlLe_iff.mpr ⟨L, hL, hLs⟩

theorem fwdScan_not_le (levels : List Level) (s : Int) (c : Nat) :
    lvlLe levels (fwdScan levels s c) s = false := by
  rw [Bool.eq_false_iff]
  intro h
  obtain ⟨L, hL, hLs⟩ := lvlLe_iff.mp h
  unfold fwdScan at hL
  rw [← List.getElem?_drop] at hL
  exact fwdScanAux_stop s (levels.drop c) L hL hLs

theorem fwdScan_lt_of_le (levels : List Level) (s : Int) (c : Nat)
    (h : lvlLe levels c s = true) : c < fwdScan levels s c := by
  obtain ⟨L, hL, hLs⟩ := lvlLe_iff.mp h
  have hdrop : (levels.drop c)[0]? = some L := by
    rw [List.getElem?_drop]
    simpa using hL
  unfold fwdScan
  cases hd : levels.drop c with
  | nil => rw [hd] at hdrop; simp at hdrop
  | cons M rest =>
    rw [hd] at hdrop
    simp only [List.getElem?_cons_zero, Option.some.injEq] at hdrop
    subst hdrop
    have h1 := fwdScanAux_pos s M rest hLs
    omega

theorem fwdScan_lt_length (levels : List Level) (s : Int) (c : Nat)
    (hc : c < levels.length)
    (htop : lvlLe levels (levels.length - 1) s = false) :
    fwdScan levels s c < levels.length := by
  have hle := fwdScan_le_length levels s c (by omega)
  rcases Nat.lt_or_ge (fwdScan levels s c) levels.length with h | h
  · exact h
  · have heq : fwdScan levels s c = levels.length := by omega
    have hmid := fwdScan_mid levels s c (levels.length - 1) (by omega) (by omega)
    rw [htop] at hmid
    cases hmid

theorem backScan_le (levels : List Level) (s : Int) (c : Nat) :
    backScan levels s c ≤ c := by
  induction c with
  | zero => simp [backScan]
  | succ k ih =>
    simp only [backScan]
    split
    · omega
    · omega

theorem lvlLe_mono {levels : List Level} {s : Int}
    (hord : List.Pairwise (fun a b : Level => a.upper ≤ b.upper) levels)
    {i j : Nat} (hij : i ≤ j) (hj : lvlLe levels j s = true) :
    lvlLe levels i s = true := by
  obtain ⟨Lj, hLj, hLjs⟩ := lvlLe_iff.mp hj
  obtain ⟨hjlen, hLjget⟩ := List.getElem?_eq_some_iff.mp hLj
  have hilen : i < levels.length := by omega
  rcases Nat.eq_or_lt_of_le hij with rfl | hlt
  · exact hj
  · have hpair := List.pairwise_iff_getElem.mp hord i j hilen hjlen hlt
    refine lvlLe_iff.mpr ⟨levels[i], List.getElem?_eq_some_iff.mpr ⟨hilen, rfl⟩, ?_⟩
    rw [hLjget] at hpair
    omega

/-! ### Claim theorems -/

/-- Claim C1 (code bug): the claim says one bias-decay step strictly
decreases the absolute value of the bias and never changes its sign.
Evaluating the decay code refutes this: for the negative bias -1 with
scale 1/2 (the value `-b 5` would store), the step yields -5/4 -- the
magnitude grows, against the code's own comment "slowly return bias to
0"; and for the positive bias 1 with the compiled-in default scale
`bias_level_default = 5`, the step yields -3/2 -- the sign flips and the
magnitude grows. -/
theorem bias_decay_diverges :
    bias_decay (-1) (1/2) = -(5/4)
  ∧ bias_decay (-1) (1/2) < -1
  ∧ bias_decay 1 bias_level_default = -(3/2)
  ∧ bias_decay 1 bias_level_default < 0 := by
  norm_num [bias_decay, bias_level_default]

/-- Claim C9 (code bug): the claim says `bias_level` always lies in
[-1, 3], for the default as well as for every accepted `-b` value.  The
`-b` path stores `b / 10`, which for the accepted range [-10, 30] indeed
lands in [-1, 3] (endpoints and the documented default argument 5 are
evaluated below), but the compiled-in default is the literal 5 -- outside
[-1, 3] and not producible by any accepted `-b` value. -/
theorem bias_level_default_out_of_range :
    bias_level_default = 5
  ∧ ¬ (-1 ≤ bias_level_default ∧ bias_level_default ≤ 3)
  ∧ set_bias_level 5 = 1/2
  ∧ set_bias_level (-10) = -1
  ∧ set_bias_level 30 = 3 := by
  norm_num [bias_level_default, set_bias_level]

/-- Claim C3: if the sensors fill fewer than `num_temps()` slots in a
cycle, the cycle raises the fatal `SystemError` (sensor lost) and issues
no fan command at all. -/
theorem sensor_lost_aborts_cycle (cfg : Config) (base cur tmpS : Nat)
    (bias : ℚ) (readings : List Int)
    (h : readings.length < cfg.numTemps) :
    oneCycle cfg base cur tmpS bias readings
      = Except.error SystemError.sensorLost
  ∧ cmdsOf (oneCycle cfg base cur tmpS bias readings) = [] := by
  have hne : readings.length ≠ cfg.numTemps := Nat.ne_of_lt h
  constructor
  · simp [oneCycle, hne]
  · simp [oneCycle, hne, cmdsOf]

/-- Witness for C3: a config declaring two temperature slots of which a
cycle fills only one. -/
theorem sensor_lost_aborts_cycle_w :
    oneCycle ⟨2, [⟨1, 0, 55⟩]⟩ 5 0 5 0 [30]
      = Except.error SystemError.sensorLost
  ∧ cmdsOf (oneCycle ⟨2, [⟨1, 0, 55⟩]⟩ 5 0 5 0 [30]) = [] :=
  sensor_lost_aborts_cycle ⟨2, [⟨1, 0, 55⟩]⟩ 5 0 5 0 [30] (by decide)

/-- Claim C4: in a cycle where the selected level's upward test does not
hold and its downward test does not hold, the only fan command issued is
the watchdog ping for the current level -- `set_speed` is not called, and
the level and hold timer are unchanged. -/
theorem no_crossing_pings_only (cfg : Config) (base cur tmpS : Nat)
    (bias : ℚ) (readings : List Int)
    (hcur : cur < cfg.levels.length)
    (hlen : readings.length = cfg.numTemps)
    (hup : lvlLe cfg.levels cur (tmaxOf readings) = false)
    (hdown : lvlGt cfg.levels cur (tmaxOf readings) = false) :
    oneCycle cfg base cur tmpS bias readings =
      Except.ok { cur := cur, tmpSleeptime := tmpS, bias := bias
                  tmax := tmaxOf readings, cmds := [FanCmd.ping cur] } := by
  simp [oneCycle, hlen, hystStep, hup, hdown]

/-- Witness for C4: one level whose range contains the reading. -/
theorem no_crossing_pings_only_w :
    oneCycle ⟨1, [⟨1, 0, 55⟩]⟩ 5 0 5 0 [30] =
      Except.ok { cur := 0, tmpSleeptime := 5, bias := 0
                  tmax := tmaxOf [30], cmds := [FanCmd.ping 0] } :=
  no_crossing_pings_only ⟨1, [⟨1, 0, 55⟩]⟩ 5 0 5 0 [30]
    (by decide) (by decide) (by decide) (by decide)

/-- Claim C6: in a cycle where the next higher level's engagement test is
satisfied, the selection advances forward through consecutive levels --
every index passed over satisfies its `<=` test -- and rests at the first
index whose test is not satisfied or at the end of the sequence; exactly
one `set_speed` command is issued, for the resting level, and the hold
timer is untouched. -/
theorem forward_scan_single_command (cfg : Config) (base cur tmpS : Nat)
    (bias : ℚ) (readings : List Int)
    (hlen : readings.length = cfg.numTemps)
    (hnext : engagedIdx cfg.levels (tmaxOf readings) (cur + 1) = true) :
    ∃ out, oneCycle cfg base cur tmpS bias readings = Except.ok out
      ∧ out.cmds = [FanCmd.set_speed out.cur]
      ∧ cur < out.cur
      ∧ out.cur ≤ cfg.levels.length
      ∧ (∀ j, cur ≤ j → j < out.cur → lvlLe cfg.levels j (tmaxOf readings) = true)
      ∧ lvlLe cfg.levels out.cur (tmaxOf readings) = false
      ∧ out.tmpSleeptime = tmpS := by
  have hle : lvlLe cfg.levels cur (tmaxOf readings) = true := by
    simpa [engagedIdx] using hnext
  have hcur := lvlLe_lt_length hle
  refine ⟨{ cur := fwdScan cfg.levels (tmaxOf readings) cur
            tmpSleeptime := tmpS
            bias := bias
            tmax := tmaxOf readings
            cmds := [FanCmd.set_speed (fwdScan cfg.levels (tmaxOf readings) cur)] },
    ?_, rfl, fwdScan_lt_of_le _ _ _ hle,
    fwdScan_le_length _ _ _ (by omega),
    fwdScan_mid _ _ _,
    fwdScan_not_le _ _ _,
    rfl⟩
  simp [oneCycle, hlen, hystStep, hle]

/-- Witness for C6: from the lowest of two levels, a reading of 60 clears
the first level's upper bound 55 and the scan rests at the second. -/
theorem forward_scan_single_command_w :
    ∃ out, oneCycle ⟨1, [⟨1, 0, 55⟩, ⟨7, 48, 32767⟩]⟩ 5 0 5 0 [60]
        = Except.ok out
      ∧ out.cmds = [FanCmd.set_speed out.cur]
      ∧ 0 < out.cur
      ∧ out.cur ≤ (Config.mk 1 [⟨1, 0, 55⟩, ⟨7, 48, 32767⟩]).levels.length
      ∧ (∀ j, 0 ≤ j → j < out.cur →
          lvlLe (Config.mk 1 [⟨1, 0, 55⟩, ⟨7, 48, 32767⟩]).levels j (tmaxOf [60]) = true)
      ∧ lvlLe (Config.mk 1 [⟨1, 0, 55⟩, ⟨7, 48, 32767⟩]).levels out.cur (tmaxOf [60]) = false
      ∧ out.tmpSleeptime = 5 :=
  forward_scan_single_command ⟨1, [⟨1, 0, 55⟩, ⟨7, 48, 32767⟩]⟩ 5 0 5 0 [60]
    (by decide) (by decide)

/-- Claim C5 counterexample: the claim says the hold timer is reset if
and only if a level-decreasing transition occurs.  With a single level
whose lower bound is 10, a reading of 5 takes the downward branch: the
timer is reset from 2 to the base interval 5, yet the selection stays at
index 0 -- a reset with no level decrease, refuting the "only if"
direction. -/
theorem tmp_sleeptime_reset_cex :
    (hystStep [⟨0, 10, 100⟩] 5 0 2 5).tmpSleeptime = 5
  ∧ (hystStep [⟨0, 10, 100⟩] 5 0 2 5).cur = 0
  ∧ (2 : Nat) ≠ 5 := by
  decide

/-- Claim C5 (amended): the hold timer is reset to the base interval
exactly when the downward branch is taken (the current level's `>` test
holds and its `<=` test does not); the forward and no-change branches
leave it at its incoming value.  When the downward branch is taken and
the selection is not already the lowest level, the level does strictly
decrease. -/
theorem tmp_sleeptime_reset_rule (levels : List Level) (s : Int)
    (cur tmpS base : Nat) :
    ((hystStep levels s cur tmpS base).tmpSleeptime =
      if lvlLe levels cur s then tmpS
      else if lvlGt levels cur s then base else tmpS)
  ∧ (lvlLe levels cur s = false → lvlGt levels cur s = true → 0 < cur →
      (hystStep levels s cur tmpS base).cur < cur) := by
  constructor
  · by_cases h1 : lvlLe levels cur s = true <;>
      by_cases h2 : lvlGt levels cur s = true <;>
        simp [hystStep, h1, h2]
  · intro h1 h2 hc
    cases cur with
    | zero => omega
    | succ k =>
      have hb := backScan_le levels s k
      simp [hystStep, h1, h2, backScan]
      omega

/-- Witness for C5 (amended): from the higher of two levels, a reading
of 20 falls below its lower bound 48; the timer is reset from 2 to 5 and
the selection decreases from 1. -/
theorem tmp_sleeptime_reset_rule_w :
    (hystStep [⟨1, 0, 55⟩, ⟨7, 48, 32767⟩] 20 1 2 5).tmpSleeptime = 5
  ∧ (hystStep [⟨1, 0, 55⟩, ⟨7, 48, 32767⟩] 20 1 2 5).cur < 1 := by
  have h := tmp_sleeptime_reset_rule [⟨1, 0, 55⟩, ⟨7, 48, 32767⟩] 20 1 2 5
  refine ⟨?_, h.2 (by decide) (by decide) (by decide)⟩
  rw [h.1]
  decide

/-- Claim C2 counterexample: the claim quantifies over all initial
readings, but for a reading that clears every level's upper bound it
fails on the code.  With the ordered two-level list below and a reading
of 100, the level at index 1 is engaged (and is the highest engaged
level, at a valid position), yet the initial scan rests at index 2 --
the past-the-end position -- so the starting selection is not the
highest engaged level (it is no level at all). -/
theorem initial_level_highest_engaged_cex :
    List.Pairwise (fun a b : Level => a.upper ≤ b.upper)
        [⟨1, 0, 55⟩, ⟨7, 48, 100⟩]
  ∧ engagedIdx [⟨1, 0, 55⟩, ⟨7, 48, 100⟩] 100 1 = true
  ∧ (1 : Nat) < ([⟨1, 0, 55⟩, ⟨7, 48, 100⟩] : List Level).length
  ∧ initialLevel [⟨1, 0, 55⟩, ⟨7, 48, 100⟩] 100 = 2
  ∧ ¬ (initialLevel [⟨1, 0, 55⟩, ⟨7, 48, 100⟩] 100
        < ([⟨1, 0, 55⟩, ⟨7, 48, 100⟩] : List Level).length) := by
  decide

/-- Claim C2 (amended): for every initial reading that does not satisfy
the highest level's upward comparison (as guaranteed in sane
configurations, whose top level's upper bound is unreachable), the
selected index at loop start is a valid position, the level there is
engaged by the initial readings, and it is the highest engaged level of
the ordered sequence -- equivalently, the index just before the first
level whose engagement test fails.  Re-running the selection on
unchanged readings trivially yields the same level, since
`initialLevel` is a pure function of the levels and the readings.  For
a reading clearing every level's upper bound the scan instead rests at
the past-the-end position and selects no level (see the counterexample
above). -/
theorem initial_level_selects_highest_engaged (levels : List Level) (s : Int)
    (hne : levels ≠ [])
    (hord : List.Pairwise (fun a b : Level => a.upper ≤ b.upper) levels)
    (htop : lvlLe levels (levels.length - 1) s = false) :
    initialLevel levels s < levels.length
  ∧ engagedIdx levels s (initialLevel levels s) = true
  ∧ (∀ j, j < levels.length → engagedIdx levels s j = true →
      j ≤ initialLevel levels s) := by
  have hlen : 0 < levels.length := List.length_pos.mpr hne
  have hlt : initialLevel levels s < levels.length :=
    fwdScan_lt_length levels s 0 hlen htop
  refine ⟨hlt, ?_, ?_⟩
  · by_cases hk : initialLevel levels s = 0
    · simp [engagedIdx, hk]
    · have hmid : lvlLe levels (initialLevel levels s - 1) s = true := by
        apply fwdScan_mid levels s 0 (initialLevel levels s - 1) (Nat.zero_le _)
        simp only [initialLevel] at hk ⊢
        omega
      simp [engagedIdx, hk, hmid]
  · intro j hj heng
    by_contra hgt
    push_neg at hgt
    have hj0 : j ≠ 0 := by omega
    have hle : lvlLe levels (j - 1) s = true := by
      simpa [engagedIdx, hj0] using heng
    have hcontra : lvlLe levels (initialLevel levels s) s = true :=
      lvlLe_mono hord (by omega) hle
    have hstop := fwdScan_not_le levels s 0
    simp only [initialLevel] at hcontra
    rw [hstop] at hcontra
    cases hcontra

/-- Witness for C2: two ordered levels; a reading of 60 clears the first
level's upper bound 55 but not the second's, so the selection is index 1
and index 1 is the highest engaged level. -/
theorem initial_level_selects_highest_engaged_w :
    initialLevel [⟨1, 0, 55⟩, ⟨7, 48, 32767⟩] 60
        < ([⟨1, 0, 55⟩, ⟨7, 48, 32767⟩] : List Level).length
  ∧ engagedIdx [⟨1, 0, 55⟩, ⟨7, 48, 32767⟩] 60
        (initialLevel [⟨1, 0, 55⟩, ⟨7, 48, 32767⟩] 60) = true
  ∧ (∀ j, j < ([⟨1, 0, 55⟩, ⟨7, 48, 32767⟩] : List Level).length →
      engagedIdx [⟨1, 0, 55⟩, ⟨7, 48, 32767⟩] 60 j = true →
      j ≤ initialLevel [⟨1, 0, 55⟩, ⟨7, 48, 32767⟩] 60) :=
  initial_level_selects_highest_engaged [⟨1, 0, 55⟩, ⟨7, 48, 32767⟩] 60
    (by decide) (by decide) (by decide)

/-- Claim C10 counterexample: the claim says the dereferenced level
iterator is never past the end for any temperature state.  With a single
level whose upper bound 10 is cleared by a reading of 50, the initial
scan stops at the past-the-end index 1, and the code then dereferences
`*cur_lvl` there. -/
theorem level_deref_past_end_cex :
    initialLevel [⟨7, -1000, 10⟩] 50 = 1
  ∧ ¬ (initialLevel [⟨7, -1000, 10⟩] 50
        < ([⟨7, -1000, 10⟩] : List Level).length) := by
  decide

/-- Claim C10 (amended): for a non-empty level list whose top level's
upper bound is not reached by the temperature state -- as in sane
configurations, where the highest level's upper bound is unreachable --
the index dereferenced for logging and `set_speed` is a valid position,
both at initial selection and after the per-cycle hysteresis transition;
without that proviso the scan can rest at the past-the-end position (see
the counterexample). -/
theorem level_deref_valid (levels : List Level) (s : Int)
    (cur tmpS base : Nat)
    (hne : levels ≠ [])
    (htop : lvlLe levels (levels.length - 1) s = false)
    (hcur : cur < levels.length) :
    initialLevel levels s < levels.length
  ∧ (hystStep levels s cur tmpS base).cur < levels.length := by
  have hlen : 0 < levels.length := List.length_pos.mpr hne
  refine ⟨fwdScan_lt_length levels s 0 hlen htop, ?_⟩
  by_cases h1 : lvlLe levels cur s = true
  · simp only [hystStep, h1, if_true]
    exact fwdScan_lt_length levels s cur hcur htop
  · by_cases h2 : lvlGt levels cur s = true
    · have hb := backScan_le levels s cur
      simp [hystStep, h1, h2]
      omega
    · simp [hystStep, h1, h2]
      omega

/-- Witness for C10 (amended): two levels, reading 60, cursor at 0. -/
theorem level_deref_valid_w :
    initialLevel [⟨1, 0, 55⟩, ⟨7, 48, 32767⟩] 60
        < ([⟨1, 0, 55⟩, ⟨7, 48, 32767⟩] : List Level).length
  ∧ (hystStep [⟨1, 0, 55⟩, ⟨7, 48, 32767⟩] 60 0 5 5).cur
        < ([⟨1, 0, 55⟩, ⟨7, 48, 32767⟩] : List Level).length :=
  level_deref_valid [⟨1, 0, 55⟩, ⟨7, 48, 32767⟩] 60 0 5 5
    (by decide) (by decide) (by decide)

/-- Claim C7: when the configuration reload attempted on SIGHUP fails
(with either exception kind), the previously active config remains the
active one, the reload-failure message is logged, the interrupt indicator
is cleared, and the do-while guard lets the loop run again with the old
config instead of terminating. -/
theorem reload_failure_keeps_config (st : MainState) (r : ReloadOutcome)
    (hs : st.interrupted = SIGHUP)
    (hf : ∀ c, r ≠ ReloadOutcome.ok c) :
    (handle_interrupt st r).config = st.config
  ∧ (handle_interrupt st r).interrupted = 0
  ∧ LogMsg.confReloadErr ∈ (handle_interrupt st r).logs
  ∧ loop_continues (handle_interrupt st r) := by
  cases r with
  | ok c => exact absurd rfl (hf c)
  | expectedErr => simp [handle_interrupt, hs, loop_continues]
  | stdErr w => simp [handle_interrupt, hs, loop_continues]

/-- Witness for C7: a state interrupted by SIGHUP whose reload throws an
`ExpectedError`. -/
theorem reload_failure_keeps_config_w :
    (handle_interrupt ⟨⟨1, [⟨1, 0, 55⟩]⟩, SIGHUP, []⟩
        ReloadOutcome.expectedErr).config
      = (⟨⟨1, [⟨1, 0, 55⟩]⟩, SIGHUP, []⟩ : MainState).config
  ∧ (handle_interrupt ⟨⟨1, [⟨1, 0, 55⟩]⟩, SIGHUP, []⟩
        ReloadOutcome.expectedErr).interrupted = 0
  ∧ LogMsg.confReloadErr ∈ (handle_interrupt ⟨⟨1, [⟨1, 0, 55⟩]⟩, SIGHUP, []⟩
        ReloadOutcome.expectedErr).logs
  ∧ loop_continues (handle_interrupt ⟨⟨1, [⟨1, 0, 55⟩]⟩, SIGHUP, []⟩
        ReloadOutcome.expectedErr) :=
  reload_failure_keeps_config ⟨⟨1, [⟨1, 0, 55⟩]⟩, SIGHUP, []⟩
    ReloadOutcome.expectedErr rfl (fun c h => ReloadOutcome.noConfusion h)

/-- Appending `", "` after every rendered reading and flattening equals
the `", "`-joined readings followed by one trailing separator, for a
non-empty list. -/
theorem flatten_map_sep (f : Int → List Char) (sep : List Char)
    (t : Int) (ts : List Int) :
    (((t :: ts).map (fun x => f x ++ sep)).flatten)
      = joinSep sep ((t :: ts).map f) ++ sep := by
  induction ts generalizing t with
  | nil => simp [joinSep]
  | cons u us ih =>
    simp only [List.map_cons, List.flatten_cons] at ih ⊢
    rw [ih u]
    simp [joinSep, List.append_assoc]

/-- Claim C8: for a non-empty sequence of readings, the status report is
exactly `"Current temperatures: "` followed by the readings joined with
`", "` -- the trailing separator appended by the loop is trimmed by the
final `substr`. -/
theorem report_tstat_joins_readings (temps : List Int) (h : temps ≠ []) :
    report_tstat temps =
      "Current temperatures: ".data ++
        joinSep ", ".data (temps.map (fun t => (toString t).data)) := by
  obtain ⟨t, ts, rfl⟩ := List.exists_cons_of_ne_nil h
  have hsep : (", ".data).length = 2 := by decide
  unfold report_tstat report_acc
  rw [flatten_map_sep, ← List.append_assoc, List.length_append, hsep,
    Nat.add_sub_cancel]
  exact List.take_left _ _

/-- Witness for C8: the readings 45 and 52 render as
`"Current temperatures: 45, 52"`. -/
theorem report_tstat_joins_readings_w :
    report_tstat [45, 52] = "Current temperatures: 45, 52".data := by
  rw [report_tstat_joins_readings [45, 52] (by decide)]
  decide
